import Mathlib

/-!
Verification of the reflection/optimization core of the ChatPPT repository.

The repository contains two implementations of a bounded critique-and-regenerate
loop over a content string:

* `src/reflection_python.py` — a plain sequential loop
  (`ReflectionEngine.optimize_content`);
* `src/reflection_engine.py` — the same contract expressed as a two-node
  langgraph state machine (`optimize` node with a conditional self-loop).

Plus a thin chat orchestrator (`src/chatbot.py`, `ChatBot.chat_with_history`)
and a UI handler (`src/gradiobak.py`, `generate_contents`).

This file shallowly embeds those functions.  The external generation client
(`self.chat_model.invoke`) is modelled as an oracle of type
`List Message → Except ε String`; every embedded operation additionally
returns the list of message lists passed to the oracle (its call trace), so
that call counts and per-round prompts are provable.  Python `dict` values
(string keys, string values, insertion ordered, in-place update) are modelled
as association lists with `dictSet` / `dictGet`.
-/

/-- Role-tagged chat message (langchain `SystemMessage` / `HumanMessage` /
`AIMessage`). -/
inductive Message where
  | system (content : String)
  | human (content : String)
  | ai (content : String)
deriving DecidableEq, Repr

/-- A generation client: maps an ordered message list to generated text or an
error (`ChatOpenAI.invoke`, which may raise). -/
def GenFn (ε : Type) : Type := List Message → Except ε String

/-- A generation client built from a deterministic, never-failing generation
function. -/
def okOf {ε : Type} (f : List Message → String) : GenFn ε :=
  fun msgs => Except.ok (f msgs)

/-- Python `dict[str, str]` as an insertion-ordered association list. -/
abbrev Dict := List (String × String)

/-- Python `d[k] = v`: update in place if the key exists, else append. -/
def dictSet (d : Dict) (k v : String) : Dict :=
  if d.any (fun p => p.1 = k) then d.map (fun p => if p.1 = k then (k, v) else p)
  else d ++ [(k, v)]

/-- Python `d[k]`, returning `none` for a missing key (`KeyError`). -/
def dictGet (d : Dict) (k : String) : Option String :=
  (d.find? (fun p => p.1 = k)).map (fun p => p.2)

/-- Round label `f"round_{round_num}"` (Python f-string over an `int`). -/
def roundKey (r : Int) : String := "round_" ++ toString r

namespace ReflectionPython

/-- `ReflectionEngine._get_reflection_prompt` from `src/reflection_python.py`:
the f-string critique template, parameterized by the loop counter
`round_num` and displaying `round_num + 1`. -/
def get_reflection_prompt (round_num : Int) : String :=
  "这是第 " ++ toString (round_num + 1) ++
    " 轮优化，请基于以下方向优化内容：\n        1. 内容深度：补充专业观点、数据支持和研究发现\n        2. 案例丰富：增加相关案例、实际应用场景\n        3. 结构优化：改进内容组织，使逻辑更清晰\n        4. 表达提升：优化语言表达，使内容更生动\n        \n        请基于上述方向对内容进行优化，保持核心主题不变。"

/-- The fixed tail of the critique template: everything after the
interpolated round number.  `get_reflection_prompt r` is literally
`"这是第 " ++ toString (r + 1) ++ reflectionTail`. -/
def reflectionTail : String :=
  " 轮优化，请基于以下方向优化内容：\n        1. 内容深度：补充专业观点、数据支持和研究发现\n        2. 案例丰富：增加相关案例、实际应用场景\n        3. 结构优化：改进内容组织，使逻辑更清晰\n        4. 表达提升：优化语言表达，使内容更生动\n        \n        请基于上述方向对内容进行优化，保持核心主题不变。"

/-- The message list built inside the loop body of `optimize_content`:
`[SystemMessage(system_prompt), HumanMessage(current_content),
SystemMessage(self._get_reflection_prompt(round_num))]`. -/
def roundMessages (system_prompt content : String) (round_num : Int) :
    List Message :=
  [Message.system system_prompt, Message.human content,
   Message.system (get_reflection_prompt round_num)]

/-- The `for round_num in range(1, self.max_rounds)` loop of
`ReflectionEngine.optimize_content`, instrumented with the list of message
lists passed to the generation client (first component).  `round_num` is the
Python loop variable; the `Nat` argument is the number of iterations left. -/
def optimizeRounds {ε : Type} (g : GenFn ε) (system_prompt : String) :
    String → Dict → Int → Nat → List (List Message) × Except ε Dict
  | _, hist, _, 0 => ([], Except.ok hist)
  | content, hist, round_num, n + 1 =>
    let msgs := roundMessages system_prompt content round_num
    match g msgs with
    | Except.error e => ([msgs], Except.error e)
    | Except.ok resp =>
      let rest := optimizeRounds g system_prompt resp
        (dictSet (dictSet hist (roundKey round_num) resp) "final_content" resp)
        (round_num + 1) n
      (msgs :: rest.1, rest.2)

/-- The dict literal `optimization_history` is initialized to
`{"round_0": initial_content, "final_content": initial_content}`. -/
def initHistory (initial_content : String) : Dict :=
  [("round_0", initial_content), ("final_content", initial_content)]

/-- `ReflectionEngine.optimize_content` from `src/reflection_python.py`
(result component).  `range(1, max_rounds)` has `(max_rounds - 1).toNat`
iterations, starting at `round_num = 1`. -/
def optimize_content {ε : Type} (g : GenFn ε) (max_rounds : Int)
    (initial_content system_prompt : String) : Except ε Dict :=
  (optimizeRounds g system_prompt initial_content (initHistory initial_content)
    1 (max_rounds - 1).toNat).2

/-- The message lists passed to the generation client during
`optimize_content` (one entry per `chat_model.invoke` call). -/
def optimizeTrace {ε : Type} (g : GenFn ε) (max_rounds : Int)
    (initial_content system_prompt : String) : List (List Message) :=
  (optimizeRounds g system_prompt initial_content (initHistory initial_content)
    1 (max_rounds - 1).toNat).1

/-- `current_content` after `i` refinement calls against the deterministic
generation function `f`, starting from `content` with loop counter `r`. -/
def chainContent (f : List Message → String) (system_prompt content : String)
    (r : Int) : Nat → String
  | 0 => content
  | i + 1 =>
    f (roundMessages system_prompt (chainContent f system_prompt content r i)
      (r + i))

/-- Pure mirror of the history accumulation for a never-failing client. -/
def chainHist (f : List Message → String) (system_prompt : String) :
    String → Dict → Int → Nat → Dict
  | _, hist, _, 0 => hist
  | content, hist, r, n + 1 =>
    let resp := f (roundMessages system_prompt content r)
    chainHist f system_prompt resp
      (dictSet (dictSet hist (roundKey r) resp) "final_content" resp) (r + 1) n

/-- Pure mirror of the call trace for a never-failing client. -/
def chainTrace (f : List Message → String) (system_prompt : String) :
    String → Int → Nat → List (List Message)
  | _, _, 0 => []
  | content, r, n + 1 =>
    roundMessages system_prompt content r ::
      chainTrace f system_prompt (f (roundMessages system_prompt content r))
        (r + 1) n

end ReflectionPython

namespace ReflectionGraph

/-- `ReflectionEngine._get_reflection_prompt` from `src/reflection_engine.py`
(character-identical to the sequential file's template). -/
def get_reflection_prompt (round_num : Int) : String :=
  "这是第 " ++ toString (round_num + 1) ++
    " 轮优化，请基于以下方向优化内容：\n        1. 内容深度：补充专业观点、数据支持和研究发现\n        2. 案例丰富：增加相关案例、实际应用场景\n        3. 结构优化：改进内容组织，使逻辑更清晰\n        4. 表达提升：优化语言表达，使内容更生动\n        \n        请基于上述方向对内容进行优化，保持核心主题不变。"

/-- `ReflectionState` (TypedDict) from `src/reflection_engine.py`.  `messages`
holds `(role, content)` dicts. -/
structure ReflectionState where
  messages : List (String × String)
  current_round : Int
  optimization_history : Dict
  should_continue : Bool
deriving DecidableEq, Repr

/-- The message list built in `_optimize_content`:
`[SystemMessage(state["messages"][0]["content"]),
HumanMessage(state["messages"][-1]["content"]),
SystemMessage(self._get_reflection_prompt(current_round))]`.
`messages` is nonempty in every reachable state, so the defaults of
`headD`/`getLastD` are never used. -/
def nodeMessages (state : ReflectionState) : List Message :=
  [Message.system (state.messages.headD ("", "")).2,
   Message.human (state.messages.getLastD ("", "")).2,
   Message.system (get_reflection_prompt state.current_round)]

/-- The state mutation performed by `_optimize_content` after a successful
generation call: append the assistant message, record the response under
`round_{current_round}` and `final_content`, and advance `current_round`. -/
def nodeUpdate (state : ReflectionState) (resp : String) : ReflectionState :=
  { messages := state.messages ++ [("assistant", resp)],
    current_round := state.current_round + 1,
    optimization_history :=
      dictSet (dictSet state.optimization_history
        (roundKey state.current_round) resp) "final_content" resp,
    should_continue := state.should_continue }

/-- The `optimize` node (`ReflectionEngine._optimize_content`): one round of
generation, re-raising any client failure.  First component: the message list
passed to the client. -/
def optimizeNode {ε : Type} (g : GenFn ε) (state : ReflectionState) :
    List Message × Except ε ReflectionState :=
  (nodeMessages state,
   match g (nodeMessages state) with
   | Except.error e => Except.error e
   | Except.ok resp => Except.ok (nodeUpdate state resp))

/-- The compiled workflow of `_create_workflow`: entry point is the
`optimize` node; after each node execution `_should_continue`
(`current_round < max_rounds`) picks either `optimize` again or the
terminal identity node `end`.  First component: the client call trace. -/
def runWorkflow {ε : Type} (g : GenFn ε) (max_rounds : Int)
    (state : ReflectionState) :
    List (List Message) × Except ε ReflectionState :=
  match g (nodeMessages state) with
  | Except.error e => ([nodeMessages state], Except.error e)
  | Except.ok resp =>
    if h : (nodeUpdate state resp).current_round < max_rounds then
      let rest := runWorkflow g max_rounds (nodeUpdate state resp)
      (nodeMessages state :: rest.1, rest.2)
    else ([nodeMessages state], Except.ok (nodeUpdate state resp))
termination_by (max_rounds - state.current_round).toNat
decreasing_by
  simp only [nodeUpdate] at h ⊢
  omega

/-- The `initial_state` built by `ReflectionEngine.optimize_content`. -/
def initialState (initial_content system_prompt : String) : ReflectionState :=
  { messages := [("system", system_prompt), ("user", initial_content)],
    current_round := 0,
    optimization_history :=
      [("round_0", initial_content), ("final_content", initial_content)],
    should_continue := true }

/-- `ReflectionEngine.optimize_content` from `src/reflection_engine.py`:
build the initial state, invoke the workflow, return its
`optimization_history` (re-raising any failure). -/
def optimize_content {ε : Type} (g : GenFn ε) (max_rounds : Int)
    (initial_content system_prompt : String) : Except ε Dict :=
  match (runWorkflow g max_rounds
      (initialState initial_content system_prompt)).2 with
  | Except.error e => Except.error e
  | Except.ok final_state => Except.ok final_state.optimization_history

/-- The message lists passed to the generation client during the graph
formulation's `optimize_content`. -/
def optimizeTrace {ε : Type} (g : GenFn ε) (max_rounds : Int)
    (initial_content system_prompt : String) : List (List Message) :=
  (runWorkflow g max_rounds (initialState initial_content system_prompt)).1

end ReflectionGraph

/-- `ChatBot` from `src/chatbot.py`.  Prompt-file loading and the credential
check are I/O boundary concerns; `prompt` is the loaded system prompt text.
`session_id` is computed from the constructor argument exactly as
`session_id if session_id else "default_session_id"` (Python falsiness: both
`None` and the empty string fall back to the default). -/
structure ChatBot where
  prompt : String
  session_id : String

/-- `ChatBot.__init__`'s session-id logic. -/
def ChatBot.init (prompt : String) (session_id : Option String) : ChatBot :=
  { prompt := prompt,
    session_id :=
      match session_id with
      | none => "default_session_id"
      | some s => if s = "" then "default_session_id" else s }

/-- `ChatBot.chat_with_history` from `src/chatbot.py`: run the graph-variant
reflection engine (`chatbot.py` imports `ReflectionEngine` from
`reflection_engine`) on the user text with the loaded prompt, then return
`optimization_result["final_content"]`.  The inner `Option` models Python's
`KeyError` on a missing key (`none`); any engine failure is re-raised. -/
def ChatBot.chat_with_history {ε : Type} (bot : ChatBot) (g : GenFn ε)
    (max_rounds : Int) (text : String) : Except ε (Option String) :=
  match ReflectionGraph.optimize_content g max_rounds text bot.prompt with
  | Except.error e => Except.error e
  | Except.ok hist => Except.ok (dictGet hist "final_content")

/-- Python runtime errors relevant to `messages[1]["content"]` in
`src/gradiobak.py` when `messages` is a `str`. -/
inductive PyErr where
  | indexError
  | typeError
deriving DecidableEq, Repr

/-- Python `s[i]` for `s : str` and a nonnegative index: a one-character
string, or `IndexError` when out of range. -/
def pyStrGetInt (s : String) (i : Nat) : Except PyErr String :=
  match s.data[i]? with
  | some c => Except.ok (String.mk [c])
  | none => Except.error PyErr.indexError

/-- Python `s[key]` for `s : str` and a `str` key: always
`TypeError: string indices must be integers`. -/
def pyStrGetStr (_s _key : String) : Except PyErr String :=
  Except.error PyErr.typeError

/-- Outcome of a gradio handler: a message list for the chat interface, or a
raised `gr.Error`. -/
inductive GrOutcome where
  | reply (msgs : List (String × String))
  | grError (msg : String)
deriving DecidableEq, Repr

/-- `generate_contents` from `src/gradiobak.py` (text-input path, `message`
already a `str`): reject empty input with `gr.Error("请输入内容")`
(re-raised as-is by the `except gr.Error` arm), call
`chat_agent.chat_with_history(text)`, then build the reply from
`messages[1]["content"]`; any non-`gr.Error` exception is converted to the
generic retry error `gr.Error("网络问题，请重试:)")`. -/
def generate_contents (chat : String → Except String String)
    (message : String) : GrOutcome :=
  if message = "" then GrOutcome.grError "请输入内容"
  else
    match chat message with
    | Except.error _ => GrOutcome.grError "网络问题，请重试:)"
    | Except.ok messages =>
      match pyStrGetInt messages 1 with
      | Except.error _ => GrOutcome.grError "网络问题，请重试:)"
      | Except.ok ch =>
        match pyStrGetStr ch "content" with
        | Except.error _ => GrOutcome.grError "网络问题，请重试:)"
        | Except.ok c => GrOutcome.reply
            [("user", message), ("assistant", c)]

/-! ## Lemmas -/

theorem dictGet_nil (k : String) : dictGet [] k = none := rfl

theorem dictGet_cons (p : String × String) (d : Dict) (k : String) :
    dictGet (p :: d) k = if p.1 = k then some p.2 else dictGet d k := by
  by_cases h : p.1 = k
  · simp [dictGet, List.find?_cons_of_pos, h]
  · simp [dictGet, List.find?_cons_of_neg, h]

theorem dictGet_eq_none_of_any_false (d : Dict) (k : String)
    (h : d.any (fun p => p.1 = k) = false) : dictGet d k = none := by
  induction d with
  | nil => rfl
  | cons p d ih =>
    simp only [List.any_cons, Bool.or_eq_false_iff] at h
    rw [dictGet_cons, if_neg (by simpa using h.1)]
    exact ih h.2

theorem dictGet_isSome_of_any_true (d : Dict) (k : String)
    (h : d.any (fun p => p.1 = k) = true) : ∃ v, dictGet d k = some v := by
  induction d with
  | nil => simp at h
  | cons p d ih =>
    simp only [List.any_cons, Bool.or_eq_true] at h
    by_cases hp : p.1 = k
    · exact ⟨p.2, by rw [dictGet_cons, if_pos hp]⟩
    · rw [dictGet_cons, if_neg hp]
      exact ih (h.resolve_left (by simpa using hp))

theorem dictGet_append (d₁ d₂ : Dict) (k : String) :
    dictGet (d₁ ++ d₂) k =
      match dictGet d₁ k with
      | some v => some v
      | none => dictGet d₂ k := by
  induction d₁ with
  | nil => simp [dictGet_nil]
  | cons p d ih =>
    by_cases h : p.1 = k
    · simp [dictGet_cons, h, ih]
    · simp only [List.cons_append, dictGet_cons, if_neg h, ih]

theorem dictGet_map_update (d : Dict) (k v key : String) :
    dictGet (d.map (fun p => if p.1 = k then (k, v) else p)) key =
      if key = k then (dictGet d k).map (fun _ => v) else dictGet d key := by
  induction d with
  | nil => by_cases h : key = k <;> simp [dictGet_nil, h]
  | cons p d ih =>
    by_cases hpk : p.1 = k
    · by_cases hkey : key = k
      · subst hkey
        simp [dictGet_cons, hpk, ih]
      · have hk : k ≠ key := fun h => hkey h.symm
        simp [dictGet_cons, hpk, hkey, hk, ih]
    · by_cases hkey : key = k
      · subst hkey
        simp [dictGet_cons, hpk, ih]
      · simp [dictGet_cons, hpk, hkey, ih]

/-- The key fact about the Python-dict model: setting key `k` changes exactly
the binding of `k` and nothing else. -/
theorem dictGet_dictSet (d : Dict) (k v key : String) :
    dictGet (dictSet d k v) key = if key = k then some v else dictGet d key := by
  unfold dictSet
  by_cases hany : d.any (fun p => p.1 = k) = true
  · rw [if_pos hany, dictGet_map_update]
    by_cases hkey : key = k
    · obtain ⟨w, hw⟩ := dictGet_isSome_of_any_true d k hany
      simp [hkey, hw]
    · simp [hkey]
  · rw [if_neg hany, dictGet_append]
    have hfalse : d.any (fun p => p.1 = k) = false := by
      cases h : d.any (fun p => p.1 = k) with
      | true => exact absurd h hany
      | false => rfl
    by_cases hkey : key = k
    · subst hkey
      rw [dictGet_eq_none_of_any_false d key hfalse]
      simp [dictGet_cons]
    · have hk : k ≠ key := fun h => hkey h.symm
      cases hd : dictGet d key <;> simp [dictGet_cons, dictGet_nil, hk, hkey, hd]

theorem roundKey_zero : roundKey 0 = "round_0" := rfl

theorem toDigitsCore_length_ge (b : Nat) :
    ∀ (f n : Nat) (l : List Char), 1 ≤ f →
      l.length + 1 ≤ (Nat.toDigitsCore b f n l).length := by
  intro f
  induction f with
  | zero => intro n l h; omega
  | succ f ih =>
    intro n l _
    simp only [Nat.toDigitsCore]
    by_cases h : n / b = 0
    · simp [h]
    · rw [if_neg h]
      cases f with
      | zero => simp [Nat.toDigitsCore]
      | succ f =>
        have := ih (n / b) (Nat.digitChar (n % b) :: l) (by omega)
        simp only [List.length_cons] at this
        omega

theorem Nat_repr_ne_zero_str (n : Nat) (h : 1 ≤ n) : Nat.repr n ≠ "0" := by
  intro hrepr
  by_cases h10 : n < 10
  · interval_cases n <;> exact absurd hrepr (by decide)
  · have hlen := congrArg String.length hrepr
    have hdiv : ¬ n / 10 = 0 := by
      have := (Nat.div_eq_zero_iff (by omega : 0 < 10)).not.mpr (by omega : ¬ n < 10)
      simpa using this
    have hrl : (Nat.repr n).length = (Nat.toDigitsCore 10 n (n / 10)
        [Nat.digitChar (n % 10)]).length := by
      simp only [Nat.repr, Nat.toDigits, Nat.toDigitsCore, hdiv, if_false]
      rfl
    have hge := toDigitsCore_length_ge 10 n (n / 10) [Nat.digitChar (n % 10)]
      (by omega)
    simp only [List.length_cons, List.length_nil] at hge
    rw [hrl] at hlen
    have : ("0" : String).length = 1 := rfl
    omega

theorem Int_toString_ne_zero (r : Int) (h : 1 ≤ r) : toString r ≠ "0" := by
  obtain ⟨n, rfl⟩ : ∃ n : Nat, r = (n : Int) :=
    ⟨r.toNat, by omega⟩
  have hn : 1 ≤ n := by omega
  show Nat.repr n ≠ "0"
  exact Nat_repr_ne_zero_str n hn

theorem String_append_left_cancel {s t u : String} (h : s ++ t = s ++ u) :
    t = u := by
  have hd := congrArg String.data h
  rw [String.data_append, String.data_append] at hd
  exact String.ext (List.append_cancel_left hd)

/-- A round label is never the literal key `"round_0"` for a positive round
number. -/
theorem roundKey_ne_round0 (r : Int) (h : 1 ≤ r) : roundKey r ≠ "round_0" := by
  intro heq
  have : ("round_" : String) ++ toString r = "round_" ++ "0" := by
    simpa [roundKey] using heq
  exact Int_toString_ne_zero r h (String_append_left_cancel this)

/-- A round label is never the key `"final_content"`. -/
theorem roundKey_ne_final (r : Int) : roundKey r ≠ "final_content" := by
  intro heq
  have hd := congrArg String.data heq
  rw [show roundKey r = "round_" ++ toString r from rfl,
    String.data_append,
    show ("round_" : String).data = ['r', 'o', 'u', 'n', 'd', '_'] from rfl,
    show ("final_content" : String).data =
      ['f', 'i', 'n', 'a', 'l', '_', 'c', 'o', 'n', 't', 'e', 'n', 't'] from
      rfl] at hd
  simp at hd

theorem final_ne_round0 : ("final_content" : String) ≠ "round_0" := by decide

namespace ReflectionPython

theorem optimizeRounds_okOf {ε : Type} (f : List Message → String)
    (system_prompt : String) :
    ∀ (n : Nat) (content : String) (hist : Dict) (r : Int),
      optimizeRounds (okOf (ε := ε) f) system_prompt content hist r n =
        (chainTrace f system_prompt content r n,
         Except.ok (chainHist f system_prompt content hist r n)) := by
  intro n
  induction n with
  | zero => intro content hist r; rfl
  | succ n ih =>
    intro content hist r
    simp only [optimizeRounds, okOf, chainTrace, chainHist, ih]

theorem chainTrace_length (f : List Message → String) (system_prompt : String) :
    ∀ (n : Nat) (content : String) (r : Int),
      (chainTrace f system_prompt content r n).length = n := by
  intro n
  induction n with
  | zero => intro content r; rfl
  | succ n ih => intro content r; simp [chainTrace, ih]

theorem chainContent_shift (f : List Message → String) (sp : String) :
    ∀ (i : Nat) (content : String) (r : Int),
      chainContent f sp (f (roundMessages sp content r)) (r + 1) i =
        chainContent f sp content r (i + 1) := by
  intro i
  induction i with
  | zero =>
    intro content r
    simp [chainContent]
  | succ i ih =>
    intro content r
    rw [chainContent, chainContent, ih]
    have : (r + 1 + (i : Int)) = (r + ((i : Nat) + 1 : Nat)) := by push_cast; ring
    rw [this]

theorem chainTrace_getElem (f : List Message → String) (sp : String) :
    ∀ (n i : Nat) (content : String) (r : Int), i < n →
      (chainTrace f sp content r n)[i]? =
        some (roundMessages sp (chainContent f sp content r i) (r + i)) := by
  intro n
  induction n with
  | zero => intro i content r h; omega
  | succ n ih =>
    intro i content r h
    cases i with
    | zero =>
      simp [chainTrace, chainContent]
    | succ i =>
      have hi : i < n := by omega
      rw [chainTrace]
      have := ih i (f (roundMessages sp content r)) (r + 1) hi
      simp only [List.getElem?_cons_succ, this, chainContent_shift]
      have harith : (r + 1 + (i : Int)) = (r + ((i : Nat) + 1 : Nat)) := by
        push_cast; ring
      rw [harith]

theorem initHistory_get (initial_content key : String) :
    dictGet (initHistory initial_content) key =
      if key = "round_0" ∨ key = "final_content" then some initial_content
      else none := by
  by_cases h0 : key = "round_0"
  · simp [initHistory, dictGet_cons, h0]
  · by_cases hf : key = "final_content"
    · have hrf : ("round_0" : String) ≠ "final_content" := by decide
      subst hf
      simp [initHistory, dictGet_cons, hrf]
    · have h0s : ("round_0" : String) ≠ key := fun h => h0 h.symm
      have hfs : ("final_content" : String) ≠ key := fun h => hf h.symm
      simp [initHistory, dictGet_cons, dictGet_nil, h0, hf, h0s, hfs]

theorem chainHist_isSome (f : List Message → String) (sp : String) :
    ∀ (n : Nat) (content : String) (hist : Dict) (r : Int) (key : String),
      (dictGet hist "final_content").isSome →
      ((dictGet (chainHist f sp content hist r n) key).isSome ↔
        ((dictGet hist key).isSome ∨ ∃ j : Nat, j < n ∧ key = roundKey (r + j))) := by
  intro n
  induction n with
  | zero =>
    intro content hist r key _
    simp [chainHist]
  | succ n ih =>
    intro content hist r key hfin
    rw [chainHist]
    have hfin' : (dictGet (dictSet (dictSet hist (roundKey r)
        (f (roundMessages sp content r))) "final_content"
        (f (roundMessages sp content r))) "final_content").isSome := by
      rw [dictGet_dictSet]
      simp
    rw [ih _ _ _ _ hfin']
    rw [dictGet_dictSet, dictGet_dictSet]
    constructor
    · rintro (hpre | ⟨j, hj, rfl⟩)
      · by_cases hkf : key = "final_content"
        · exact Or.inl (by simpa [hkf] using hfin)
        · rw [if_neg hkf] at hpre
          by_cases hkr : key = roundKey r
          · exact Or.inr ⟨0, by omega, by simpa using hkr⟩
          · exact Or.inl (by simpa [if_neg hkr] using hpre)
      · refine Or.inr ⟨j + 1, by omega, ?_⟩
        congr 1
        push_cast
        ring
    · rintro (hpre | ⟨j, hj, rfl⟩)
      · by_cases hkf : key = "final_content"
        · left; simp [hkf]
        · by_cases hkr : key = roundKey r
          · left; simp [hkf, hkr]
          · left; simpa [if_neg hkf, if_neg hkr] using hpre
      · cases j with
        | zero =>
          left
          by_cases hkf : roundKey (r + (0 : Nat)) = "final_content"
          · simp [hkf]
          · rw [if_neg hkf]
            have : roundKey (r + (0 : Nat)) = roundKey r := by norm_num
            simp [this]
        | succ j =>
          right
          refine ⟨j, by omega, ?_⟩
          congr 1
          push_cast
          ring

theorem chainHist_last (f : List Message → String) (sp : String) :
    ∀ (m : Nat) (content : String) (hist : Dict) (r : Int),
      ∃ v, dictGet (chainHist f sp content hist r (m + 1)) "final_content" =
            some v ∧
        dictGet (chainHist f sp content hist r (m + 1)) (roundKey (r + m)) =
            some v := by
  intro m
  induction m with
  | zero =>
    intro content hist r
    refine ⟨f (roundMessages sp content r), ?_, ?_⟩
    · rw [chainHist, chainHist, dictGet_dictSet]
      simp
    · rw [chainHist, chainHist, dictGet_dictSet,
        if_neg (fun h => roundKey_ne_final (r + (0 : Nat)) h),
        dictGet_dictSet]
      have : roundKey (r + (0 : Nat)) = roundKey r := by norm_num
      simp [this]
  | succ m ih =>
    intro content hist r
    rw [chainHist]
    obtain ⟨v, hv1, hv2⟩ := ih (f (roundMessages sp content r))
      (dictSet (dictSet hist (roundKey r) (f (roundMessages sp content r)))
        "final_content" (f (roundMessages sp content r))) (r + 1)
    refine ⟨v, hv1, ?_⟩
    have : (r + 1 + (m : Int)) = (r + ((m : Nat) + 1 : Nat)) := by
      push_cast; ring
    rw [← this]
    exact hv2

theorem optimizeRounds_round0 {ε : Type} (g : GenFn ε) (sp : String) :
    ∀ (n : Nat) (content : String) (hist : Dict) (r : Int), 1 ≤ r →
      ∀ hist', (optimizeRounds g sp content hist r n).2 = Except.ok hist' →
        dictGet hist' "round_0" = dictGet hist "round_0" := by
  intro n
  induction n with
  | zero =>
    intro content hist r _ hist' h
    simp only [optimizeRounds] at h
    cases h
    rfl
  | succ n ih =>
    intro content hist r hr hist' h
    rw [optimizeRounds] at h
    cases hg : g (roundMessages sp content r) with
    | error e => rw [hg] at h; cases h
    | ok resp =>
      rw [hg] at h
      simp only at h
      have := ih resp
        (dictSet (dictSet hist (roundKey r) resp) "final_content" resp)
        (r + 1) (by omega) hist' h
      rw [this, dictGet_dictSet,
        if_neg (fun hh => final_ne_round0 hh.symm), dictGet_dictSet,
        if_neg (fun hh => roundKey_ne_round0 r hr hh.symm)]

end ReflectionPython

namespace ReflectionGraph

theorem runWorkflow_trace_cons {ε : Type} (g : GenFn ε) (max_rounds : Int)
    (state : ReflectionState) :
    ∃ t, (runWorkflow g max_rounds state).1 = nodeMessages state :: t := by
  unfold runWorkflow
  cases hg : g (nodeMessages state) with
  | error e => exact ⟨[], rfl⟩
  | ok resp =>
    simp only
    by_cases h : (nodeUpdate state resp).current_round < max_rounds
    · rw [dif_pos h]
      exact ⟨(runWorkflow g max_rounds (nodeUpdate state resp)).1, rfl⟩
    · rw [dif_neg h]
      exact ⟨[], rfl⟩

theorem runWorkflow_ok_final {ε : Type} (g : GenFn ε) (max_rounds : Int) :
    ∀ (st s : ReflectionState),
      (runWorkflow g max_rounds st).2 = Except.ok s →
      ∃ v, dictGet s.optimization_history "final_content" = some v := by
  suffices H : ∀ (k : Nat) (st s : ReflectionState),
      (max_rounds - st.current_round).toNat = k →
      (runWorkflow g max_rounds st).2 = Except.ok s →
      ∃ v, dictGet s.optimization_history "final_content" = some v by
    intro st s h
    exact H _ st s rfl h
  intro k
  induction k using Nat.strong_induction_on with
  | _ k ih =>
    intro st s hk hrun
    unfold runWorkflow at hrun
    cases hg : g (nodeMessages st) with
    | error e => rw [hg] at hrun; cases hrun
    | ok resp =>
      rw [hg] at hrun
      simp only at hrun
      by_cases h : (nodeUpdate st resp).current_round < max_rounds
      · rw [dif_pos h] at hrun
        have hcr : (nodeUpdate st resp).current_round =
            st.current_round + 1 := rfl
        refine ih ((max_rounds - (nodeUpdate st resp).current_round).toNat)
          ?_ (nodeUpdate st resp) s rfl hrun
        rw [hcr] at h ⊢
        omega
      · rw [dif_neg h] at hrun
        cases hrun
        refine ⟨resp, ?_⟩
        simp [nodeUpdate, dictGet_dictSet]

end ReflectionGraph

/-! ## Claims -/

/-- C1: the claim states that for every input and every deterministic
generation function the sequential formulation
(`reflection_python.ReflectionEngine.optimize_content`) and the graph
formulation (`reflection_engine.ReflectionEngine.optimize_content`) return
identical `OptimizationHistory` mappings.  This is false: with
`max_rounds = 1`, `initial_content = "x"`, `system_prompt = "s"` and the
deterministic client that always generates `"y"`, the sequential form makes
no client call and returns `round_0 = "x"`, while the graph form makes one
client call (its loop counter starts at `0` and the entry node runs before
the continuation check) and returns `round_0 = "y"`.  The two results are
distinct. -/
theorem claim_C1_not_equivalent :
    ReflectionPython.optimize_content (okOf (fun _ => "y") : GenFn String) 1
        "x" "s" = Except.ok [("round_0", "x"), ("final_content", "x")] ∧
    ReflectionGraph.optimize_content (okOf (fun _ => "y") : GenFn String) 1
        "x" "s" = Except.ok [("round_0", "y"), ("final_content", "y")] ∧
    (ReflectionPython.optimizeTrace (okOf (fun _ => "y") : GenFn String) 1
        "x" "s").length = 0 ∧
    (ReflectionGraph.optimizeTrace (okOf (fun _ => "y") : GenFn String) 1
        "x" "s").length = 1 ∧
    ReflectionPython.optimize_content (okOf (fun _ => "y") : GenFn String) 1
        "x" "s" ≠
      ReflectionGraph.optimize_content (okOf (fun _ => "y") : GenFn String) 1
        "x" "s" := by
  have hseq : ReflectionPython.optimize_content
      (okOf (fun _ => "y") : GenFn String) 1 "x" "s" =
      Except.ok [("round_0", "x"), ("final_content", "x")] := rfl
  have hgraph : ReflectionGraph.optimize_content
      (okOf (fun _ => "y") : GenFn String) 1 "x" "s" =
      Except.ok [("round_0", "y"), ("final_content", "y")] := by
    unfold ReflectionGraph.optimize_content ReflectionGraph.runWorkflow
    rfl
  have htrace : (ReflectionGraph.optimizeTrace
      (okOf (fun _ => "y") : GenFn String) 1 "x" "s").length = 1 := by
    unfold ReflectionGraph.optimizeTrace ReflectionGraph.runWorkflow
    rfl
  refine ⟨hseq, hgraph, rfl, htrace, ?_⟩
  intro heq
  rw [hseq, hgraph] at heq
  have h1 := congrArg (fun r : Except String Dict =>
    match r with
    | Except.ok h => dictGet h "round_0"
    | Except.error _ => none) heq
  simp only [dictGet_cons] at h1
  exact absurd h1 (by decide)

/-- C3: the claim states that in either formulation the returned history has
`round_0` equal to the literal `initial_content`, with no generation call
producing it.  This holds for the sequential form but is false for the graph
form: with `max_rounds = 1`, `initial_content = "a"` and a client that
always generates `"b"`, the graph form's entry node runs at
`current_round = 0` and overwrites `round_0` with the generated text. -/
theorem claim_C3_graph_overwrites_round0 :
    ReflectionPython.optimize_content (okOf (fun _ => "b") : GenFn String) 1
        "a" "s" = Except.ok [("round_0", "a"), ("final_content", "a")] ∧
    ReflectionGraph.optimize_content (okOf (fun _ => "b") : GenFn String) 1
        "a" "s" = Except.ok [("round_0", "b"), ("final_content", "b")] ∧
    dictGet [("round_0", "b"), ("final_content", "b")] "round_0" ≠
      some "a" := by
  refine ⟨rfl, ?_, by decide⟩
  unfold ReflectionGraph.optimize_content ReflectionGraph.runWorkflow
  rfl

/-- C9: in the graph formulation the `optimize` node is the entry point and
the continuation predicate is evaluated only after a node execution, so for
every `max_rounds` (including values `≤ 0`) a run performs at least one
generation call, whose message list is built from the initial state with the
round-`0` prompt; the node records the generated text under `round_0`
before any termination check, and for `max_rounds ≤ 1` the returned history
is exactly `{round_0: generated, final_content: generated}`. -/
theorem claim_C9_graph_entry_always_calls :
    (∀ (g : GenFn String) (max_rounds : Int) (init sp : String),
        1 ≤ (ReflectionGraph.optimizeTrace g max_rounds init sp).length) ∧
    (∀ (g : GenFn String) (max_rounds : Int) (init sp : String),
        (ReflectionGraph.optimizeTrace g max_rounds init sp)[0]? =
          some [Message.system sp, Message.human init,
            Message.system (ReflectionGraph.get_reflection_prompt 0)]) ∧
    (∀ (g : GenFn String) (init sp resp : String),
        g (ReflectionGraph.nodeMessages (ReflectionGraph.initialState init sp))
            = Except.ok resp →
        (ReflectionGraph.optimizeNode g
            (ReflectionGraph.initialState init sp)).2 =
          Except.ok (ReflectionGraph.nodeUpdate
            (ReflectionGraph.initialState init sp) resp) ∧
        dictGet (ReflectionGraph.nodeUpdate
            (ReflectionGraph.initialState init sp) resp).optimization_history
          (roundKey 0) = some resp) ∧
    (∀ (g : GenFn String) (max_rounds : Int) (init sp resp : String),
        max_rounds ≤ 1 →
        g (ReflectionGraph.nodeMessages (ReflectionGraph.initialState init sp))
            = Except.ok resp →
        ReflectionGraph.optimize_content g max_rounds init sp =
          Except.ok [("round_0", resp), ("final_content", resp)]) := by
  refine ⟨?_, ?_, ?_, ?_⟩
  · intro g max_rounds init sp
    obtain ⟨t, ht⟩ := ReflectionGraph.runWorkflow_trace_cons g max_rounds
      (ReflectionGraph.initialState init sp)
    unfold ReflectionGraph.optimizeTrace
    rw [ht]
    simp
  · intro g max_rounds init sp
    obtain ⟨t, ht⟩ := ReflectionGraph.runWorkflow_trace_cons g max_rounds
      (ReflectionGraph.initialState init sp)
    unfold ReflectionGraph.optimizeTrace
    rw [ht]
    simp only [List.getElem?_cons_zero]
    rfl
  · intro g init sp resp hg
    constructor
    · unfold ReflectionGraph.optimizeNode
      rw [hg]
    · simp only [ReflectionGraph.nodeUpdate, ReflectionGraph.initialState]
      rw [dictGet_dictSet, if_neg (roundKey_ne_final 0), dictGet_dictSet,
        if_pos rfl]
  · intro g max_rounds init sp resp hm hg
    unfold ReflectionGraph.optimize_content ReflectionGraph.runWorkflow
    rw [hg]
    simp only
    rw [dif_neg (by simp [ReflectionGraph.nodeUpdate,
      ReflectionGraph.initialState]; omega)]
    rfl

/-- Witness for C9 at concrete inputs: `max_rounds = 0` (a value `≤ 0`),
constant client `"b"`, `initial_content = "a"`. -/
theorem claim_C9_witness :
    1 ≤ (ReflectionGraph.optimizeTrace (okOf (fun _ => "b") : GenFn String) 0
        "a" "s").length ∧
    ReflectionGraph.optimize_content (okOf (fun _ => "b") : GenFn String) 0
        "a" "s" = Except.ok [("round_0", "b"), ("final_content", "b")] :=
  ⟨claim_C9_graph_entry_always_calls.1 (okOf (fun _ => "b")) 0 "a" "s",
   claim_C9_graph_entry_always_calls.2.2.2 (okOf (fun _ => "b")) 0 "a" "s" "b"
     (by decide) rfl⟩

namespace ReflectionPython

theorem optimizeRounds_error {ε : Type} (g : GenFn ε) (sp : String) :
    ∀ (n : Nat) (content : String) (hist : Dict) (r : Int) (e : ε),
      (optimizeRounds g sp content hist r n).2 = Except.error e →
      ∃ msgs, msgs ∈ (optimizeRounds g sp content hist r n).1 ∧
        g msgs = Except.error e := by
  intro n
  induction n with
  | zero =>
    intro content hist r e h
    simp only [optimizeRounds] at h
    cases h
  | succ n ih =>
    intro content hist r e h
    rw [optimizeRounds] at h ⊢
    cases hg : g (roundMessages sp content r) with
    | error e' =>
      rw [hg] at h
      dsimp only at h
      injection h with he
      subst he
      exact ⟨roundMessages sp content r, by simp, hg⟩
    | ok resp =>
      rw [hg] at h
      dsimp only at h ⊢
      obtain ⟨msgs, hmem, hge⟩ := ih resp
        (dictSet (dictSet hist (roundKey r) resp) "final_content" resp)
        (r + 1) e h
      exact ⟨msgs, by simp [hmem], hge⟩

theorem optimizeRounds_trace_struct {ε : Type} (g : GenFn ε) (sp : String) :
    ∀ (n : Nat) (content : String) (hist : Dict) (r : Int) (i : Nat),
      i < (optimizeRounds g sp content hist r n).1.length →
      ∃ c, (optimizeRounds g sp content hist r n).1[i]? =
        some (roundMessages sp c (r + i)) := by
  intro n
  induction n with
  | zero =>
    intro content hist r i h
    simp only [optimizeRounds, List.length_nil] at h
    omega
  | succ n ih =>
    intro content hist r i h
    rw [optimizeRounds] at h ⊢
    cases hg : g (roundMessages sp content r) with
    | error e =>
      rw [hg] at h
      dsimp only at h ⊢
      simp only [List.length_cons, List.length_nil] at h
      have hi : i = 0 := by omega
      subst hi
      refine ⟨content, ?_⟩
      have : (r + ((0 : Nat) : Int)) = r := by norm_num
      rw [this, List.getElem?_cons_zero]
    | ok resp =>
      rw [hg] at h
      dsimp only at h ⊢
      simp only [List.length_cons] at h
      cases i with
      | zero =>
        refine ⟨content, ?_⟩
        have : (r + ((0 : Nat) : Int)) = r := by norm_num
        rw [this, List.getElem?_cons_zero]
      | succ i =>
        obtain ⟨c, hc⟩ := ih resp
          (dictSet (dictSet hist (roundKey r) resp) "final_content" resp)
          (r + 1) i (by omega)
        refine ⟨c, ?_⟩
        rw [List.getElem?_cons_succ, hc]
        have : (r + 1 + (i : Int)) = (r + ((i : Nat) + 1 : Nat)) := by
          push_cast; ring
        rw [this]

end ReflectionPython

/-- C2: for `max_rounds = N ≥ 1`, the sequential `optimize_content` calls the
generation client exactly `N - 1` times, and the returned history's key set
is exactly `round_0 .. round_{N-1}` plus `final_content`; with
`max_rounds = 1` the client is never invoked. -/
theorem claim_C2_calls_and_keys (f : List Message → String) (N : Int)
    (init sp : String) (hN : 1 ≤ N) :
    (ReflectionPython.optimizeTrace (okOf f : GenFn String) N init sp).length
        = (N - 1).toNat ∧
    (∃ hist,
      ReflectionPython.optimize_content (okOf f : GenFn String) N init sp =
        Except.ok hist ∧
      ∀ key, (dictGet hist key).isSome ↔
        (key = "final_content" ∨
          ∃ r : Int, 0 ≤ r ∧ r < N ∧ key = roundKey r)) ∧
    (N = 1 →
      ReflectionPython.optimizeTrace (okOf f : GenFn String) N init sp = []) := by
  refine ⟨?_, ?_, ?_⟩
  · unfold ReflectionPython.optimizeTrace
    rw [ReflectionPython.optimizeRounds_okOf]
    simp [ReflectionPython.chainTrace_length]
  · refine ⟨ReflectionPython.chainHist f sp init
      (ReflectionPython.initHistory init) 1 (N - 1).toNat, ?_, ?_⟩
    · unfold ReflectionPython.optimize_content
      rw [ReflectionPython.optimizeRounds_okOf]
    · intro key
      have hfin : (dictGet (ReflectionPython.initHistory init)
          "final_content").isSome := by
        rw [ReflectionPython.initHistory_get]
        simp
      rw [ReflectionPython.chainHist_isSome f sp _ init _ 1 key hfin]
      rw [ReflectionPython.initHistory_get]
      constructor
      · rintro (hpre | ⟨j, hj, rfl⟩)
        · by_cases h0 : key = "round_0"
          · exact Or.inr ⟨0, le_refl 0, by omega, by rw [h0, roundKey_zero]⟩
          · by_cases hfc : key = "final_content"
            · exact Or.inl hfc
            · simp [h0, hfc] at hpre
        · exact Or.inr ⟨1 + (j : Int), by omega, by omega, rfl⟩
      · rintro (rfl | ⟨r, hr0, hrN, rfl⟩)
        · simp
        · by_cases hr1 : r = 0
          · subst hr1
            rw [roundKey_zero]
            simp
          · refine Or.inr ⟨(r - 1).toNat, by omega, ?_⟩
            congr 1
            omega
  · intro h1
    subst h1
    unfold ReflectionPython.optimizeTrace
    rw [ReflectionPython.optimizeRounds_okOf]
    rfl

/-- Witness for C2 at `N = 3` with the constant client `"w"`. -/
theorem claim_C2_witness :
    (1 : Int) ≤ 3 ∧
    (ReflectionPython.optimizeTrace (okOf (fun _ => "w") : GenFn String) 3 "a"
      "s").length = ((3 : Int) - 1).toNat :=
  ⟨by decide,
   (claim_C2_calls_and_keys (fun _ => "w") 3 "a" "s" (by decide)).1⟩

/-- C5: for the sequential `optimize_content` with `max_rounds = N ≥ 1` and a
deterministic never-failing client, the returned history's `final_content`
equals the entry recorded for the highest round `round_{N-1}` (both present),
and with `N = 1` it equals `initial_content`.  Universality in `N` covers
every intermediate point of a longer run, since the history after `k`
refinement calls is the returned history of the run with `max_rounds = k+1`. -/
theorem claim_C5_final_tracks_last_round (f : List Message → String) (N : Int)
    (init sp : String) (hN : 1 ≤ N) :
    ∃ hist,
      ReflectionPython.optimize_content (okOf f : GenFn String) N init sp =
        Except.ok hist ∧
      dictGet hist "final_content" = dictGet hist (roundKey (N - 1)) ∧
      (dictGet hist "final_content").isSome ∧
      (N = 1 → dictGet hist "final_content" = some init) := by
  refine ⟨ReflectionPython.chainHist f sp init
    (ReflectionPython.initHistory init) 1 (N - 1).toNat, ?_, ?_⟩
  · unfold ReflectionPython.optimize_content
    rw [ReflectionPython.optimizeRounds_okOf]
  · cases hn : (N - 1).toNat with
    | zero =>
      have hN1 : N = 1 := by omega
      subst hN1
      refine ⟨?_, ?_, ?_⟩
      · rw [ReflectionPython.chainHist]
        norm_num [roundKey_zero]
        rw [ReflectionPython.initHistory_get, ReflectionPython.initHistory_get]
        simp
      · rw [ReflectionPython.chainHist, ReflectionPython.initHistory_get]
        simp
      · intro _
        rw [ReflectionPython.chainHist, ReflectionPython.initHistory_get]
        simp
    | succ m =>
      obtain ⟨v, hv1, hv2⟩ := ReflectionPython.chainHist_last f sp m init
        (ReflectionPython.initHistory init) 1
      have harith : ((1 : Int) + m) = N - 1 := by omega
      rw [harith] at hv2
      exact ⟨by rw [hv1, hv2], by rw [hv1]; rfl, fun h1 => by omega⟩

/-- Witness for C5 at `N = 3` with the constant client `"v"`. -/
theorem claim_C5_witness :
    (1 : Int) ≤ 3 ∧
    ∃ hist,
      ReflectionPython.optimize_content (okOf (fun _ => "v") : GenFn String) 3
        "a" "s" = Except.ok hist ∧
      dictGet hist "final_content" = dictGet hist (roundKey ((3 : Int) - 1)) ∧
      (dictGet hist "final_content").isSome ∧
      ((3 : Int) = 1 → dictGet hist "final_content" = some "a") :=
  ⟨by decide, claim_C5_final_tracks_last_round (fun _ => "v") 3 "a" "s"
    (by decide)⟩

/-- C7: for each refinement round of the sequential `optimize_content`, the
message list sent to the client is exactly `[system_prompt as System,
current content as User, critique instruction as System]`; the critique
instruction is the fixed template whose only parameter is the round number
displayed 1-indexed (round `round_0` counts as the first round, so the call
producing `round_r` displays `r + 1`), asking for improvement along the four
fixed axes (depth `内容深度`, examples `案例丰富`, structure `结构优化`,
expression `表达提升`) while preserving the core topic
(`保持核心主题不变`); the graph file's template is character-identical. -/
theorem claim_C7_message_list_and_template :
    (∀ r : Int, ReflectionPython.get_reflection_prompt r =
        "这是第 " ++ toString (r + 1) ++ ReflectionPython.reflectionTail) ∧
    (∃ t0 t1 t2 t3 t4 t5, ReflectionPython.reflectionTail =
        t0 ++ "内容深度" ++ t1 ++ "案例丰富" ++ t2 ++ "结构优化" ++ t3 ++
          "表达提升" ++ t4 ++ "保持核心主题不变" ++ t5) ∧
    ReflectionGraph.get_reflection_prompt =
      ReflectionPython.get_reflection_prompt ∧
    (∀ (f : List Message → String) (N : Int) (init sp : String) (i : Nat),
        i < (ReflectionPython.optimizeTrace (okOf f : GenFn String) N init
          sp).length →
        (ReflectionPython.optimizeTrace (okOf f : GenFn String) N init sp)[i]?
          = some [Message.system sp,
              Message.human (ReflectionPython.chainContent f sp init 1 i),
              Message.system
                (ReflectionPython.get_reflection_prompt (1 + (i : Int)))]) := by
  refine ⟨fun _ => rfl, ?_, funext fun _ => rfl, ?_⟩
  · exact ⟨" 轮优化，请基于以下方向优化内容：\n        1. ",
      "：补充专业观点、数据支持和研究发现\n        2. ",
      "：增加相关案例、实际应用场景\n        3. ",
      "：改进内容组织，使逻辑更清晰\n        4. ",
      "：优化语言表达，使内容更生动\n        \n        请基于上述方向对内容进行优化，",
      "。", rfl⟩
  · intro f N init sp i hi
    unfold ReflectionPython.optimizeTrace at hi ⊢
    rw [ReflectionPython.optimizeRounds_okOf] at hi ⊢
    dsimp only at hi ⊢
    rw [ReflectionPython.chainTrace_length] at hi
    rw [ReflectionPython.chainTrace_getElem f sp _ i init 1 hi]
    rfl

/-- Witness for C7: the first refinement call of a concrete run. -/
theorem claim_C7_witness :
    0 < (ReflectionPython.optimizeTrace (okOf (fun _ => "z") : GenFn String) 3
      "line" "sys").length ∧
    (ReflectionPython.optimizeTrace (okOf (fun _ => "z") : GenFn String) 3
      "line" "sys")[0]? =
      some [Message.system "sys",
        Message.human (ReflectionPython.chainContent (fun _ => "z") "sys"
          "line" 1 0),
        Message.system
          (ReflectionPython.get_reflection_prompt (1 + ((0 : Nat) : Int)))] :=
  ⟨by decide,
   claim_C7_message_list_and_template.2.2.2 (fun _ => "z") 3 "line" "sys" 0
     (by decide)⟩

set_option maxRecDepth 4000 in
/-- C4 counterexample: the claim additionally asserts that the error reaches
the caller "with round context (which round failed) attached".  It does not:
the sequential `optimize_content` re-raises the client's exception object
unmodified (bare `raise`), so a client failing on round 1 and a client
failing on round 2 produce *identical* results (`Except.error "boom"`), and
the caller cannot recover which round failed.  The two runs below fail at
round 1 (trace length 1) and round 2 (trace length 2) respectively, yet
return the same error value. -/
theorem claim_C4_counterexample :
    ReflectionPython.optimize_content
        ((fun _ => Except.error "boom") : GenFn String) 3 "a" "s" =
      Except.error "boom" ∧
    ReflectionPython.optimize_content
        ((fun msgs =>
          if Message.system (ReflectionPython.get_reflection_prompt 2) ∈ msgs
          then Except.error "boom" else Except.ok "ok") : GenFn String) 3 "a"
        "s" = Except.error "boom" ∧
    (ReflectionPython.optimizeTrace
        ((fun _ => Except.error "boom") : GenFn String) 3 "a" "s").length =
      1 ∧
    (ReflectionPython.optimizeTrace
        ((fun msgs =>
          if Message.system (ReflectionPython.get_reflection_prompt 2) ∈ msgs
          then Except.error "boom" else Except.ok "ok") : GenFn String) 3 "a"
        "s").length = 2 :=
  ⟨rfl, rfl, rfl, rfl⟩

/-- C4 amended: if the generation client raises on some round, the sequential
`optimize_content` propagates the originating error object unmodified to the
caller (no round context is attached to the raised error; the surrounding
log line does not carry the round number either), no history value is
returned, and no retry is performed — the call trace consists of
consecutive rounds `1, 2, …`, each called at most once with the canonical
message list. -/
theorem claim_C4_error_propagation {ε : Type} (g : GenFn ε) (N : Int)
    (init sp : String) (e : ε)
    (h : ReflectionPython.optimize_content g N init sp = Except.error e) :
    (∃ msgs, msgs ∈ ReflectionPython.optimizeTrace g N init sp ∧
      g msgs = Except.error e) ∧
    (∀ i : Nat, i < (ReflectionPython.optimizeTrace g N init sp).length →
      ∃ c, (ReflectionPython.optimizeTrace g N init sp)[i]? =
        some (ReflectionPython.roundMessages sp c (1 + (i : Int)))) := by
  constructor
  · exact ReflectionPython.optimizeRounds_error g sp (N - 1).toNat init
      (ReflectionPython.initHistory init) 1 e h
  · intro i hi
    exact ReflectionPython.optimizeRounds_trace_struct g sp (N - 1).toNat init
      (ReflectionPython.initHistory init) 1 i hi

/-- Witness for C4 (amended) at a concrete failing client. -/
theorem claim_C4_witness :
    ReflectionPython.optimize_content
        ((fun _ => Except.error "boom") : GenFn String) 3 "a" "s" =
      Except.error "boom" ∧
    ∃ msgs, msgs ∈ ReflectionPython.optimizeTrace
        ((fun _ => Except.error "boom") : GenFn String) 3 "a" "s" ∧
      ((fun _ => Except.error "boom") : GenFn String) msgs =
        Except.error "boom" :=
  ⟨rfl,
   (claim_C4_error_propagation (fun _ => Except.error "boom") 3 "a" "s" "boom"
     rfl).1⟩

/-- C6 counterexample: the claim asserts that an empty `initial_content`
raises an `InputError` before any generation call.  Neither implementation
performs any input validation (no `InputError` exists in the repository):
with empty initial content both return normally — the sequential form with
`round_0 = ""` and zero client calls at `max_rounds = 1` (even with a client
that would fail if called), the graph form by generating as usual. -/
theorem claim_C6_counterexample :
    ReflectionPython.optimize_content
        ((fun _ => Except.error "never-called") : GenFn String) 1 "" "s" =
      Except.ok [("round_0", ""), ("final_content", "")] ∧
    ReflectionPython.optimizeTrace
        ((fun _ => Except.error "never-called") : GenFn String) 1 "" "s" =
      [] ∧
    ReflectionGraph.optimize_content (okOf (fun _ => "b") : GenFn String) 1 ""
      "s" = Except.ok [("round_0", "b"), ("final_content", "b")] := by
  refine ⟨rfl, rfl, ?_⟩
  unfold ReflectionGraph.optimize_content ReflectionGraph.runWorkflow
  rfl

/-- C6 amended: empty `initial_content` is accepted, no error is raised
before (or instead of) entering the loop, and the run proceeds exactly as
with any other content: every successful sequential run records the empty
string under `round_0`, and with `max_rounds = 1` the result is returned
with no client call at all. -/
theorem claim_C6_empty_input_accepted {ε : Type} (g : GenFn ε) (N : Int)
    (sp : String) :
    (∀ hist, ReflectionPython.optimize_content g N "" sp = Except.ok hist →
      dictGet hist "round_0" = some "") ∧
    ReflectionPython.optimize_content g 1 "" sp =
      Except.ok [("round_0", ""), ("final_content", "")] ∧
    ReflectionPython.optimizeTrace g 1 "" sp = [] := by
  refine ⟨?_, rfl, rfl⟩
  intro hist h
  have h0 := ReflectionPython.optimizeRounds_round0 g sp (N - 1).toNat ""
    (ReflectionPython.initHistory "") 1 (by omega) hist h
  rw [h0, ReflectionPython.initHistory_get]
  simp

/-- Witness for C6 (amended) at a concrete client. -/
theorem claim_C6_witness :
    dictGet [("round_0", ""), ("final_content", "")] "round_0" = some "" :=
  (claim_C6_empty_input_accepted (okOf (fun _ => "x") : GenFn String) 1
    "sys").1 [("round_0", ""), ("final_content", "")]
    ((claim_C6_empty_input_accepted (okOf (fun _ => "x") : GenFn String) 1
      "sys").2.1)

/-- C8: `ChatBot.chat_with_history` applies the reflection engine's
`optimize_content` (the graph variant, which `chatbot.py` imports) to the
user's text with the loaded system prompt and returns the result's
`final_content` field as the reply (which is always present, so the lookup
never raises `KeyError`); a `ChatBot` constructed without a session id gets
the session id `"default_session_id"`. -/
theorem claim_C8_chat_returns_final_content (p : String) (g : GenFn String)
    (m : Int) (text : String) :
    (ChatBot.init p none).session_id = "default_session_id" ∧
    (ChatBot.init p none).prompt = p ∧
    (∀ hist, ReflectionGraph.optimize_content g m text p = Except.ok hist →
      ∃ c, dictGet hist "final_content" = some c ∧
        (ChatBot.init p none).chat_with_history g m text =
          Except.ok (some c)) := by
  refine ⟨rfl, rfl, ?_⟩
  intro hist h
  unfold ReflectionGraph.optimize_content at h
  cases hrun : (ReflectionGraph.runWorkflow g m
      (ReflectionGraph.initialState text p)).2 with
  | error e => rw [hrun] at h; cases h
  | ok s =>
    rw [hrun] at h
    injection h with hh
    subst hh
    obtain ⟨v, hv⟩ := ReflectionGraph.runWorkflow_ok_final g m
      (ReflectionGraph.initialState text p) s hrun
    refine ⟨v, hv, ?_⟩
    unfold ChatBot.chat_with_history ReflectionGraph.optimize_content
    dsimp only [ChatBot.init]
    rw [hrun]
    dsimp only
    rw [hv]

/-- Witness for C8 at a concrete prompt, client and text. -/
theorem claim_C8_witness :
    ∃ c, dictGet [("round_0", "r"), ("final_content", "r")] "final_content" =
        some c ∧
      (ChatBot.init "sys" none).chat_with_history
        (okOf (fun _ => "r") : GenFn String) 1 "hi" = Except.ok (some c) :=
  (claim_C8_chat_returns_final_content "sys" (okOf (fun _ => "r")) 1 "hi").2.2
    [("round_0", "r"), ("final_content", "r")]
    (by unfold ReflectionGraph.optimize_content ReflectionGraph.runWorkflow
        rfl)

/-- C10: `ChatBot.chat_with_history` returns a plain string, but
`generate_contents` in `gradiobak.py` accesses `messages[1]["content"]` on
that return value.  For every non-empty text input this access raises
(subscripting a `str` by a `str` is a `TypeError`; a short reply gives an
`IndexError`), the handler converts it to the generic retry error
`gr.Error("网络问题，请重试:)")`, and the text-input path never returns an
assistant reply. -/
theorem claim_C10_text_path_never_replies
    (chat : String → Except String String) (message : String)
    (hne : message ≠ "") :
    (∀ out, generate_contents chat message ≠ GrOutcome.reply out) ∧
    (∀ r, chat message = Except.ok r →
      generate_contents chat message =
        GrOutcome.grError "网络问题，请重试:)") := by
  constructor
  · intro out heq
    unfold generate_contents at heq
    rw [if_neg hne] at heq
    cases hc : chat message with
    | error e =>
      rw [hc] at heq
      exact GrOutcome.noConfusion heq
    | ok r =>
      rw [hc] at heq
      dsimp only at heq
      cases hint : pyStrGetInt r 1 with
      | error e2 =>
        rw [hint] at heq
        exact GrOutcome.noConfusion heq
      | ok ch =>
        rw [hint] at heq
        dsimp only [pyStrGetStr] at heq
        exact GrOutcome.noConfusion heq
  · intro r hr
    unfold generate_contents
    rw [if_neg hne, hr]
    dsimp only
    cases hint : pyStrGetInt r 1 with
    | error e2 => rfl
    | ok ch => rfl

/-- Witness for C10 at a concrete non-empty input and reply. -/
theorem claim_C10_witness :
    ("hello" : String) ≠ "" ∧
    generate_contents (fun _ => Except.ok "reply-text") "hello" =
      GrOutcome.grError "网络问题，请重试:)" :=
  ⟨by decide,
   (claim_C10_text_path_never_replies (fun _ => Except.ok "reply-text")
     "hello" (by decide)).2 "reply-text" rfl⟩
